import Mathlib

/-!
Verification of the SeoAuditAi frontend handler, a shallow embedding of
src/frontend/script.js.

The file embeds the two units of the script:
* the submit handler attached to the audit form, modelled as the list of
  UI/network actions it performs for a given fetch outcome, and
* the pure function formatResults, modelled directly as a Lean function
  on the optional error/warning lists.

JavaScript truthiness conventions used by the script are modelled as
follows: an absent (or otherwise falsy, e.g. null) errors/warnings field
is Option.none, while an array value (truthy even when empty) is
Option.some of the list; an absent or falsy message field is none or
some of the empty string.
-/

namespace SeoAuditAi

/-- The nested data object of an audit response, read defensively by
formatResults: each field may be absent (none) or an array of strings. -/
structure AuditData where
  errors : Option (List String)
  warnings : Option (List String)
deriving DecidableEq

/-- The parsed JSON body of an audit response. -/
structure ApiResponse where
  status : String
  message : Option String
  data : AuditData
deriving DecidableEq

/-- Result of awaiting response.json after a response arrived. -/
inductive BodyResult where
  | parseError (msg : String)
  | parsed (r : ApiResponse)
deriving DecidableEq

/-- Outcome of the fetch call: the promise rejects with a network error,
or a response with some HTTP status and body arrives. -/
inductive FetchOutcome where
  | networkError (msg : String)
  | response (status : Nat) (body : BodyResult)
deriving DecidableEq

/-- Heading emitted unconditionally at the start of formatResults. -/
def headingHtml : String := "<h3>Audit Results</h3>"

/-- Opening markup of the errors section. -/
def errorsOpen : String := "<h4>Errors</h4><ul class=\"list-group mb-3\">"

/-- Opening markup of the warnings section. -/
def warningsOpen : String := "<h4>Warnings</h4><ul class=\"list-group mb-3\">"

/-- Closing tag of a section list. -/
def listClose : String := "</ul>"

/-- Success indicator emitted when both fields are absent. -/
def successAlert : String := "<div class=\"alert alert-success\">No issues found!</div>"

/-- One list item of a section; the entry is interpolated verbatim. -/
def liItem (entry : String) : String :=
  "<li class=\"list-group-item\">" ++ entry ++ "</li>"

/-- Embedding of formatResults from script.js. The forEach accumulation
into the html variable is a left fold; the guard on each section is the
truthiness of field and field.length, i.e. the field is an array of
nonzero length; the final guard is the falsiness of both fields. -/
def formatResults (data : AuditData) : String :=
  let html := headingHtml
  let html :=
    match data.errors with
    | some errors =>
      if errors.length != 0 then
        (errors.foldl (fun h e => h ++ liItem e) (html ++ errorsOpen)) ++ listClose
      else html
    | none => html
  let html :=
    match data.warnings with
    | some warnings =>
      if warnings.length != 0 then
        (warnings.foldl (fun h w => h ++ liItem w) (html ++ warningsOpen)) ++ listClose
      else html
    | none => html
  let html :=
    match data.errors, data.warnings with
    | none, none => html ++ successAlert
    | _, _ => html
  html

/-- Concatenation of the rendered pieces of a list, in list order. -/
def concatMap (f : α → String) : List α → String
  | [] => ""
  | x :: xs => f x ++ concatMap f xs

/-- An HTTP request as assembled by the fetch call. -/
structure HttpRequest where
  endpoint : String
  method : String
  contentType : String
  body : String
deriving DecidableEq

/-- The hardcoded audit endpoint. -/
def auditEndpoint : String := "https://seoauditai.onrender.com/audit"

/-- Lowercase hexadecimal digit, as used by JSON string escapes. -/
def hexDigit (n : Nat) : Char :=
  if n < 10 then Char.ofNat (48 + n) else Char.ofNat (87 + n)

/-- Four-digit lowercase hexadecimal rendering of a code point. -/
def hex4 (n : Nat) : String :=
  String.mk [hexDigit (n / 4096 % 16), hexDigit (n / 256 % 16),
             hexDigit (n / 16 % 16), hexDigit (n % 16)]

/-- Escape of a single character inside a JSON string literal, following
the ECMAScript JSON.stringify serialization of string values. -/
def jsonEscapeChar (c : Char) : String :=
  if c = '"' then "\\\""
  else if c = '\\' then "\\\\"
  else if c = '\x08' then "\\b"
  else if c = '\t' then "\\t"
  else if c = '\n' then "\\n"
  else if c = '\x0c' then "\\f"
  else if c = '\r' then "\\r"
  else if c.toNat < 32 then "\\u" ++ hex4 c.toNat
  else String.singleton c

/-- ECMAScript JSON.stringify applied to a string value. -/
def jsonStringifyString (s : String) : String :=
  "\"" ++ concatMap jsonEscapeChar s.data ++ "\""

/-- The request built by the handler: JSON.stringify of the one-field
object whose url field is the raw input value, sent unvalidated. -/
def auditRequest (url : String) : HttpRequest :=
  { endpoint := auditEndpoint
    method := "POST"
    contentType := "application/json"
    body := "\x7b\"url\":" ++ jsonStringifyString url ++ "\x7d" }

/-- The observable actions of the handler, in program order. -/
inductive UiEvent where
  | setDisabled (b : Bool)
  | setLabel (s : String)
  | setResult (s : String)
  | sendRequest (r : HttpRequest)
deriving DecidableEq

/-- State of the submit control. -/
structure ButtonState where
  disabled : Bool
  label : String
deriving DecidableEq

/-- The DOM state the handler mutates: the submit control and the
innerHTML of the result container. -/
structure PageState where
  button : ButtonState
  resultHtml : String
deriving DecidableEq

/-- Effect of one handler action on the page state. -/
def applyEvent (s : PageState) : UiEvent → PageState
  | .setDisabled b => { s with button := { s.button with disabled := b } }
  | .setLabel l => { s with button := { s.button with label := l } }
  | .setResult h => { s with resultHtml := h }
  | .sendRequest _ => s

/-- Replay a list of handler actions on a page state. -/
def runTrace (s : PageState) (events : List UiEvent) : PageState :=
  events.foldl applyEvent s

/-- Failure banner written by the catch block and by the
application-error branch. -/
def dangerBanner (msg : String) : String :=
  "<div class=\"alert alert-danger\">Error: " ++ msg ++ "</div>"

/-- Message of the Error thrown on a non-ok response status. -/
def transportErrorMessage (status : Nat) : String :=
  "HTTP error! Status: " ++ toString status

/-- Semantics of response.ok for a fetch Response: status in 200..299. -/
def responseOk (status : Nat) : Bool :=
  decide (200 ≤ status) && decide (status ≤ 299)

/-- Value of the JavaScript expression data.message or the fallback
string: the message when present and truthy (nonempty), the fallback
otherwise. -/
def messageOrFallback (message : Option String) : String :=
  match message with
  | some m => if m = "" then "Audit failed" else m
  | none => "Audit failed"

/-- Markup written into the result container after the fetch settles,
on each of the exit paths of the try/catch. -/
def renderResult (outcome : FetchOutcome) : String :=
  match outcome with
  | .networkError msg => dangerBanner msg
  | .response status body =>
    if !(responseOk status) then dangerBanner (transportErrorMessage status)
    else
      match body with
      | .parseError msg => dangerBanner msg
      | .parsed r =>
        if r.status = "success" then formatResults r.data
        else dangerBanner (messageOrFallback r.message)

/-- The full action sequence of one submission of the audit form, for a
given input value and fetch outcome: the setup writes, the single fetch,
the one result write of the taken exit path, then the finally block. -/
def handlerTrace (url : String) (outcome : FetchOutcome) : List UiEvent :=
  [.setDisabled true, .setLabel "Running Audit...", .setResult "<p>Loading...</p>",
   .sendRequest (auditRequest url),
   .setResult (renderResult outcome),
   .setDisabled false, .setLabel "Run Audit"]

/-- Page state after one full submission starting from state s. -/
def finalState (s : PageState) (url : String) (outcome : FetchOutcome) : PageState :=
  runTrace s (handlerTrace url outcome)

/-- The requests issued in a trace, in order. -/
def sentRequests (events : List UiEvent) : List HttpRequest :=
  events.filterMap fun e =>
    match e with
    | .sendRequest r => some r
    | _ => none

/-- Scans a trace with the current disabled flag of the submit control
(initially d) and reports whether any request is sent while the control
is enabled. -/
def sendWhileEnabled (d : Bool) : List UiEvent → Bool
  | [] => false
  | .setDisabled b :: es => sendWhileEnabled b es
  | .sendRequest _ :: es => !d || sendWhileEnabled d es
  | _ :: es => sendWhileEnabled d es

/-- Modelled from the spec: the host page markup (index.html is not part
of src/) supplies the submit control; its idle label, which the cleanup
phase of the handler restores, is the Run Audit caption. -/
def initialButton : ButtonState :=
  { disabled := false, label := "Run Audit" }

/-- A page in its idle state, before any submission. -/
def initialPage : PageState :=
  { button := initialButton, resultHtml := "" }

/-- Occurrence of pat as a contiguous substring of s. -/
def strOccurs (pat s : String) : Prop :=
  pat.data <:+: s.data

instance (pat s : String) : Decidable (strOccurs pat s) :=
  inferInstanceAs (Decidable (pat.data <:+: s.data))

/-- The section markup of formatResults without the trailing success
indicator: heading, then the errors section when its guard fires, then
the warnings section when its guard fires. -/
def sectionsHtml (data : AuditData) : String :=
  headingHtml
  ++ (match data.errors with
      | some errors =>
        if errors.length != 0 then errorsOpen ++ concatMap liItem errors ++ listClose
        else ""
      | none => "")
  ++ (match data.warnings with
      | some warnings =>
        if warnings.length != 0 then warningsOpen ++ concatMap liItem warnings ++ listClose
        else ""
      | none => "")

theorem foldl_append_concatMap (f : α → String) :
    ∀ (l : List α) (init : String),
      l.foldl (fun h x => h ++ f x) init = init ++ concatMap f l := by
  intro l
  induction l with
  | nil => intro init; simp [concatMap]
  | cons x xs ih => intro init; simp [concatMap, ih, String.append_assoc]

theorem formatResults_characterization (d : AuditData) :
    formatResults d =
      sectionsHtml d ++
        (if d.errors = none ∧ d.warnings = none then successAlert else "") := by
  obtain ⟨e, w⟩ := d
  cases e <;> cases w <;>
    simp [formatResults, sectionsHtml, foldl_append_concatMap,
      String.append_assoc] <;>
    split_ifs <;>
    simp_all [String.append_assoc]

theorem strOccurs_refl (s : String) : strOccurs s s :=
  ⟨[], [], by simp⟩

theorem strOccurs_append_left {pat s : String} (t : String)
    (h : strOccurs pat s) : strOccurs pat (s ++ t) := by
  obtain ⟨u, v, huv⟩ := h
  exact ⟨u, v ++ t.data, by rw [String.data_append, ← huv]; simp [List.append_assoc]⟩

theorem strOccurs_append_right {pat t : String} (s : String)
    (h : strOccurs pat t) : strOccurs pat (s ++ t) := by
  obtain ⟨u, v, huv⟩ := h
  exact ⟨s.data ++ u, v, by rw [String.data_append, ← huv]; simp [List.append_assoc]⟩

theorem strOccurs_mono {pat m s : String} (hm : strOccurs pat m)
    (h : strOccurs m s) : strOccurs pat s := by
  obtain ⟨u, v, huv⟩ := hm
  obtain ⟨p, q, hpq⟩ := h
  exact ⟨p ++ u, v ++ q, by rw [← hpq, ← huv]; simp [List.append_assoc]⟩

theorem strOccurs_liItem (x : String) : strOccurs x (liItem x) :=
  strOccurs_append_left _ (strOccurs_append_right _ (strOccurs_refl x))

theorem strOccurs_concatMap_liItem {x : String} :
    ∀ {l : List String}, x ∈ l → strOccurs x (concatMap liItem l) := by
  intro l
  induction l with
  | nil => intro h; cases h
  | cons y ys ih =>
    intro h
    rw [concatMap]
    rcases List.mem_cons.mp h with rfl | hmem
    · exact strOccurs_append_left _ (strOccurs_liItem x)
    · exact strOccurs_append_right _ (ih hmem)

theorem strOccurs_dangerBanner (m : String) : strOccurs m (dangerBanner m) :=
  strOccurs_append_left _ (strOccurs_append_right _ (strOccurs_refl m))

theorem finalState_eq (s : PageState) (url : String) (o : FetchOutcome) :
    finalState s url o =
      { button := { disabled := false, label := "Run Audit" },
        resultHtml := renderResult o } := rfl

/-- C1: after every submission, whatever the fetch outcome (successful
render, transport error, network error, parse error, or application
error), the final page state has the submit control enabled again and
its label restored to the idle label of the host page. -/
theorem cleanup_restores_button (s : PageState) (url : String) (o : FetchOutcome) :
    (finalState s url o).button.disabled = false ∧
    (finalState s url o).button.label = initialButton.label := ⟨rfl, rfl⟩

set_option maxRecDepth 10000 in
/-- C2 counterexample: with the errors field present but empty and the
warnings field absent, neither field is present-and-non-empty, yet the
rendered output is the bare heading: it does not contain the no-issues
success indicator, contradicting the claim that the indicator is
rendered exactly when neither field is present and non-empty. -/
theorem no_issues_indicator_cex :
    formatResults ⟨some [], none⟩ = headingHtml ∧
    ¬ strOccurs successAlert (formatResults ⟨some [], none⟩) := by
  refine ⟨rfl, ?_⟩
  rw [show formatResults ⟨some [], none⟩ = headingHtml from rfl]
  decide

set_option maxRecDepth 10000 in
/-- C2 amended: formatResults appends the no-issues success indicator
exactly when both the errors and the warnings field are absent (JS
falsy), not merely empty; for the empty data object the output is the
heading followed by the indicator, with no list items. -/
theorem no_issues_indicator (d : AuditData) :
    formatResults d =
      sectionsHtml d ++
        (if d.errors = none ∧ d.warnings = none then successAlert else "") ∧
    formatResults ⟨none, none⟩ = headingHtml ++ successAlert ∧
    ¬ strOccurs "<li" (formatResults ⟨none, none⟩) :=
  ⟨formatResults_characterization d, rfl, by
    rw [show formatResults ⟨none, none⟩ = headingHtml ++ successAlert from rfl]
    decide⟩

/-- C3: when both lists are present and non-empty, the output is the
heading, then the errors section with one list item per error in array
order, then the warnings section with one list item per warning in
array order, and every entry occurs verbatim in the output. -/
theorem sections_in_order (d : AuditData) (es ws : List String)
    (he : d.errors = some es) (hnes : es ≠ [])
    (hw : d.warnings = some ws) (hnws : ws ≠ []) :
    formatResults d =
      headingHtml ++ (errorsOpen ++ concatMap liItem es ++ listClose)
        ++ (warningsOpen ++ concatMap liItem ws ++ listClose) ∧
    (∀ x ∈ es, strOccurs x (formatResults d)) ∧
    (∀ x ∈ ws, strOccurs x (formatResults d)) := by
  obtain ⟨e, w⟩ := d
  cases he
  cases hw
  have hles : es.length ≠ 0 := fun h => hnes (List.length_eq_zero.mp h)
  have hlws : ws.length ≠ 0 := fun h => hnws (List.length_eq_zero.mp h)
  have heq : formatResults ⟨some es, some ws⟩ =
      headingHtml ++ (errorsOpen ++ concatMap liItem es ++ listClose)
        ++ (warningsOpen ++ concatMap liItem ws ++ listClose) := by
    simp [formatResults, foldl_append_concatMap, hles, hlws, String.append_assoc]
  refine ⟨heq, ?_, ?_⟩
  · intro x hx
    rw [heq]
    exact strOccurs_append_left _ (strOccurs_append_right _
      (strOccurs_append_left _ (strOccurs_append_right _
        (strOccurs_concatMap_liItem hx))))
  · intro x hx
    rw [heq]
    exact strOccurs_append_right _
      (strOccurs_append_left _ (strOccurs_append_right _
        (strOccurs_concatMap_liItem hx)))

/-- Witness for C3 at the concrete data of the spec example. -/
theorem sections_in_order_witness :
    formatResults ⟨some ["E1"], some ["W1", "W2"]⟩ =
      headingHtml ++ (errorsOpen ++ concatMap liItem ["E1"] ++ listClose)
        ++ (warningsOpen ++ concatMap liItem ["W1", "W2"] ++ listClose) ∧
    strOccurs "E1" (formatResults ⟨some ["E1"], some ["W1", "W2"]⟩) :=
  ⟨(sections_in_order ⟨some ["E1"], some ["W1", "W2"]⟩ ["E1"] ["W1", "W2"]
      rfl (by decide) rfl (by decide)).1,
   (sections_in_order ⟨some ["E1"], some ["W1", "W2"]⟩ ["E1"] ["W1", "W2"]
      rfl (by decide) rfl (by decide)).2.1 "E1" (by decide)⟩

/-- C4: a response whose status is outside the success range makes the
handler throw an error carrying the numeric status, and the result
container ends up holding a failure banner containing that status. -/
theorem transport_error_banner (s : PageState) (url : String) (status : Nat)
    (body : BodyResult) (h : responseOk status = false) :
    (finalState s url (.response status body)).resultHtml =
      dangerBanner (transportErrorMessage status) ∧
    strOccurs (toString status)
      ((finalState s url (.response status body)).resultHtml) := by
  have hr : (finalState s url (.response status body)).resultHtml =
      dangerBanner (transportErrorMessage status) := by
    rw [finalState_eq]
    simp [renderResult, h]
  refine ⟨hr, ?_⟩
  rw [hr]
  exact strOccurs_mono
    (strOccurs_append_right _ (strOccurs_refl (toString status)))
    (strOccurs_dangerBanner (transportErrorMessage status))

/-- Witness for C4: a status-500 response yields a banner containing
the digits 500. -/
theorem transport_error_banner_witness :
    responseOk 500 = false ∧
    strOccurs "500"
      ((finalState initialPage "u" (.response 500 (.parseError ""))).resultHtml) := by
  have h := (transport_error_banner initialPage "u" 500 (.parseError "")
    (by decide)).2
  rw [show (toString 500 : String) = "500" from rfl] at h
  exact ⟨by decide, h⟩

/-- C5: a parsed response with a status other than success makes the
handler write a failure banner built from the message field when it is
truthy and the generic fallback otherwise; the banner contains the
message whenever it is present, and contains the fallback when it is
absent. -/
theorem application_error_banner (s : PageState) (url : String) (status : Nat)
    (r : ApiResponse) (hok : responseOk status = true)
    (hst : r.status ≠ "success") :
    (finalState s url (.response status (.parsed r))).resultHtml =
      dangerBanner (messageOrFallback r.message) ∧
    (∀ m, r.message = some m →
      strOccurs m ((finalState s url (.response status (.parsed r))).resultHtml)) ∧
    (r.message = none →
      strOccurs "Audit failed"
        ((finalState s url (.response status (.parsed r))).resultHtml)) := by
  have hr : (finalState s url (.response status (.parsed r))).resultHtml =
      dangerBanner (messageOrFallback r.message) := by
    rw [finalState_eq]
    simp [renderResult, hok, hst]
  refine ⟨hr, ?_, ?_⟩
  · intro m hm
    rw [hr, hm]
    by_cases he : m = ""
    · subst he
      exact ⟨[], (dangerBanner (messageOrFallback (some ""))).data, rfl⟩
    · exact strOccurs_mono
        (strOccurs_refl m)
        (by simpa [messageOrFallback, he] using
          strOccurs_dangerBanner (messageOrFallback (some m)))
  · intro hm
    rw [hr, hm]
    exact strOccurs_dangerBanner "Audit failed"

/-- Witness for C5 at the concrete response of the spec example. -/
theorem application_error_banner_witness :
    strOccurs "bad url"
      ((finalState initialPage "u"
        (.response 200 (.parsed ⟨"error", some "bad url", ⟨none, none⟩⟩))).resultHtml) :=
  (application_error_banner initialPage "u" 200
    ⟨"error", some "bad url", ⟨none, none⟩⟩ (by decide) (by decide)).2.1
    "bad url" rfl

/-- C6: every error thrown during the request/render sequence (network
failure, non-success HTTP status, JSON parse failure) is caught at the
single call site and rendered as a failure banner containing that
error's message text, and the control ends up re-enabled. -/
theorem thrown_error_banner :
    (∀ (s : PageState) (url msg : String),
      (finalState s url (.networkError msg)).resultHtml = dangerBanner msg ∧
      strOccurs msg ((finalState s url (.networkError msg)).resultHtml) ∧
      (finalState s url (.networkError msg)).button.disabled = false) ∧
    (∀ (s : PageState) (url : String) (status : Nat) (body : BodyResult),
      responseOk status = false →
      (finalState s url (.response status body)).resultHtml =
        dangerBanner (transportErrorMessage status) ∧
      strOccurs (transportErrorMessage status)
        ((finalState s url (.response status body)).resultHtml) ∧
      (finalState s url (.response status body)).button.disabled = false) ∧
    (∀ (s : PageState) (url : String) (status : Nat) (pm : String),
      responseOk status = true →
      (finalState s url (.response status (.parseError pm))).resultHtml =
        dangerBanner pm ∧
      strOccurs pm
        ((finalState s url (.response status (.parseError pm))).resultHtml) ∧
      (finalState s url (.response status (.parseError pm))).button.disabled
        = false) := by
  refine ⟨?_, ?_, ?_⟩
  · intro s url msg
    exact ⟨rfl, strOccurs_dangerBanner msg, rfl⟩
  · intro s url status body h
    have hr : (finalState s url (.response status body)).resultHtml =
        dangerBanner (transportErrorMessage status) := by
      rw [finalState_eq]
      simp [renderResult, h]
    exact ⟨hr, by rw [hr]; exact strOccurs_dangerBanner _, rfl⟩
  · intro s url status pm h
    have hr : (finalState s url (.response status (.parseError pm))).resultHtml =
        dangerBanner pm := by
      rw [finalState_eq]
      simp [renderResult, h]
    exact ⟨hr, by rw [hr]; exact strOccurs_dangerBanner pm, rfl⟩

/-- Witness for C6: a JSON parse failure on an ok response yields the
parse-failure banner with the control re-enabled. -/
theorem thrown_error_banner_witness :
    responseOk 200 = true ∧
    (finalState initialPage "u"
      (.response 200 (.parseError "Unexpected end of JSON input"))).resultHtml =
      dangerBanner "Unexpected end of JSON input" ∧
    (finalState initialPage "u"
      (.response 200 (.parseError "Unexpected end of JSON input"))).button.disabled
      = false := by
  have h := thrown_error_banner.2.2 initialPage "u" 200
    "Unexpected end of JSON input" (by decide)
  exact ⟨by decide, h.1, h.2.2⟩

/-- C7: on every submission the handler first disables the submit
control, sets the in-progress label and writes the loading placeholder,
and only then issues the request; no request is ever sent while the
control is enabled, whatever its state before the submission. -/
theorem setup_before_request (url : String) (o : FetchOutcome) (d : Bool) :
    handlerTrace url o =
      [.setDisabled true, .setLabel "Running Audit...",
       .setResult "<p>Loading...</p>", .sendRequest (auditRequest url)] ++
      [.setResult (renderResult o), .setDisabled false, .setLabel "Run Audit"] ∧
    sendWhileEnabled d (handlerTrace url o) = false := ⟨rfl, rfl⟩

/-- C8: every submission issues exactly one POST to the fixed endpoint
with the JSON content type, whose body is the JSON serialization of the
one-field object carrying the raw url; when the url needs no JSON
escaping the value appears verbatim between the quotes. -/
theorem single_post_request (url : String) (o : FetchOutcome) :
    sentRequests (handlerTrace url o) = [auditRequest url] ∧
    (auditRequest url).endpoint = auditEndpoint ∧
    (auditRequest url).method = "POST" ∧
    (auditRequest url).contentType = "application/json" ∧
    (auditRequest url).body = "\x7b\"url\":" ++ jsonStringifyString url ++ "\x7d" ∧
    ((∀ c ∈ url.data, jsonEscapeChar c = String.singleton c) →
      (auditRequest url).body =
        "\x7b\"url\":" ++ ("\"" ++ url ++ "\"") ++ "\x7d") := by
  refine ⟨rfl, rfl, rfl, rfl, rfl, ?_⟩
  intro h
  have hgen : ∀ (l : List Char), (∀ c ∈ l, jsonEscapeChar c = String.singleton c) →
      concatMap jsonEscapeChar l = String.mk l := by
    intro l
    induction l with
    | nil => intro; rfl
    | cons c cs ih =>
      intro hl
      rw [concatMap, hl c (List.mem_cons_self c cs),
        ih (fun x hx => hl x (List.mem_cons_of_mem c hx))]
      rfl
  have hcm : concatMap jsonEscapeChar url.data = String.mk url.data := hgen url.data h
  have hmk : String.mk url.data = url := by cases url; rfl
  simp [auditRequest, jsonStringifyString, hcm, hmk, String.append_assoc]

/-- Witness for C8 at a concrete escape-free url. -/
theorem single_post_request_witness :
    (auditRequest "https://example.com").body =
      "\x7b\"url\":" ++ ("\"" ++ "https://example.com" ++ "\"") ++ "\x7d" :=
  (single_post_request "https://example.com" (.networkError "")).2.2.2.2.2
    (by decide)

/-- C9: formatResults is a pure deterministic function of its argument:
two data objects with the same fields format to the same markup. -/
theorem formatResults_deterministic (d₁ d₂ : AuditData)
    (he : d₁.errors = d₂.errors) (hw : d₁.warnings = d₂.warnings) :
    formatResults d₁ = formatResults d₂ := by
  obtain ⟨e₁, w₁⟩ := d₁
  obtain ⟨e₂, w₂⟩ := d₂
  cases he
  cases hw
  rfl

/-- Witness for C9 at a concrete data object. -/
theorem formatResults_deterministic_witness :
    formatResults ⟨some ["E1"], some ["W1"]⟩ =
      formatResults ⟨some ["E1"], some ["W1"]⟩ :=
  formatResults_deterministic ⟨some ["E1"], some ["W1"]⟩
    ⟨some ["E1"], some ["W1"]⟩ rfl rfl

/-- C10: for every data object the output of formatResults begins with
the fixed Audit Results heading, emitted before any section or the
success indicator. -/
theorem output_starts_with_heading (d : AuditData) :
    ∃ rest, formatResults d = headingHtml ++ rest := by
  rw [formatResults_characterization d]
  simp only [sectionsHtml, String.append_assoc]
  exact ⟨_, rfl⟩

end SeoAuditAi
